import Mathlib

/-!
Verification development for the AI-Teacher repository.

The repository is a browser UI wiring a generative-AI client, an OCR engine,
speech APIs and a drawing canvas into request/response cycles with an
in-memory conversation history.  This file shallowly embeds the operations
of the hooks and of the top-level App component and proves properties of
that embedding.

Conventions of the embedding:
- Asynchronous JS functions become pure Lean functions from an explicit
  environment (the outcomes of the external calls: the generative model,
  the OCR worker stages, media availability) to a record of the observable
  results (returned value, state-setter values, appended history records,
  which external calls were made).
- A thrown JS exception is an Except.error carrying the message of the
  Error object; try/catch is modelled by matching on the Except value.
- React state setters are modelled as fields of the run record holding the
  final written value; the Date timestamp of a history record is not
  modelled (wall-clock), records keep kind and text.
- Operations of this repository whose source files are not included (the
  Quiz Engine lookup and generation, and the Handwriting Extractor) are
  modelled from the specification; each such definition carries a doc
  comment starting Modelled from the spec.
-/

deriving instance DecidableEq for Except

namespace AiTeacher

/-- Kind of one conversation-history entry, from the union type
of conversationHistory in App.tsx. -/
inductive RecordKind where
  | question
  | answer
deriving DecidableEq, Repr

/-- One entry of conversationHistory in App.tsx: type and text
(the Date timestamp, assigned at creation, is not modelled). -/
structure InteractionRecord where
  kind : RecordKind
  text : String
deriving DecidableEq, Repr

/-- Fixed user-facing strings of App.tsx. -/
def voicePlaceholderMsg : String := "Speak to ask a question..."

/-- Camera placeholder string of App.tsx. -/
def cameraPlaceholderMsg : String := "Enable camera to analyze images"

/-- Chat failure string of handleAskQuestion. -/
def askFailMsg : String := "Failed to get response. Please try again."

/-- Failure string of handleAnalyzeImage. -/
def analyzeFailMsg : String := "Failed to analyze image. Please try again."

/-- Failure string of handleWhiteboardSubmit. -/
def whiteboardFailMsg : String := "Failed to analyze drawing. Please try again."

/-- Default question of handleAnalyzeImage when the transcript is empty. -/
def defaultVisionQuestion : String := "What do you see in this image?"

/-- addToHistory of App.tsx: appends one record to the history list. -/
def addToHistory (h : List InteractionRecord) (kind : RecordKind)
    (text : String) : List InteractionRecord :=
  h ++ [⟨kind, text⟩]

/-- clearHistory of App.tsx sets the history to the empty list (and clears
the response and the transcript). -/
def clearHistory : List InteractionRecord := []

/-- Observable outcome of a chat-mode handler of App.tsx. -/
structure HandlerRun where
  aiInvoked : Bool
  history : List InteractionRecord
  response : String
  transcriptCleared : Bool
deriving DecidableEq, Repr

/-- handleAskQuestion of App.tsx.  An empty transcript is falsy in JS, so
the guard shows the placeholder and returns before the try block; otherwise
the question is appended, processAIResponse is awaited, and on a result
with nonempty (truthy) text the answer is appended, the response shown and
the transcript reset; a rejection is caught and shown as askFailMsg. -/
def handleAskQuestion (transcript : String) (ai : Except String String)
    (h0 : List InteractionRecord) (r0 : String) : HandlerRun :=
  if transcript = "" then
    ⟨false, h0, voicePlaceholderMsg, false⟩
  else
    match ai with
    | .error _ => ⟨true, addToHistory h0 .question transcript, askFailMsg, false⟩
    | .ok t =>
      if t = "" then ⟨true, addToHistory h0 .question transcript, r0, false⟩
      else
        ⟨true, addToHistory (addToHistory h0 .question transcript) .answer t,
          t, true⟩

/-- handleAnalyzeImage of App.tsx.  Without a webcam video element it
short-circuits to the camera placeholder; otherwise the question is the
transcript or the default, a question record is appended, and the frame is
analyzed like handleAskQuestion. -/
def handleAnalyzeImage (videoAvailable : Bool) (transcript : String)
    (ai : Except String String) (h0 : List InteractionRecord) (r0 : String) :
    HandlerRun :=
  if videoAvailable = false then
    ⟨false, h0, cameraPlaceholderMsg, false⟩
  else
    let question := if transcript = "" then defaultVisionQuestion else transcript
    match ai with
    | .error _ => ⟨true, addToHistory h0 .question question, analyzeFailMsg, false⟩
    | .ok t =>
      if t = "" then ⟨true, addToHistory h0 .question question, r0, false⟩
      else
        ⟨true, addToHistory (addToHistory h0 .question question) .answer t,
          t, true⟩

/-- Observable outcome of handleFileUpload or handleWhiteboardSubmit over
the conversation state, with the App-level setError value. -/
structure UploadRun where
  aiInvoked : Bool
  history : List InteractionRecord
  response : String
  appError : Option String
deriving DecidableEq, Repr

/-- Image argument of processAIResponse in useAIResponse.ts: an object
with inlineData, an HTMLVideoElement (a live video source carrying the
current frame), or an HTMLImageElement. -/
inductive ImageInput where
  | inline (data : String) (mimeType : String)
  | video (frame : String)
  | imageEl (src : String)
deriving DecidableEq, Repr

/-- Symbolic stand-in for drawing a video frame on a w-by-h canvas and
encoding it with canvas.toDataURL under the given mime type at the given
quality (in percent).  The browser encoder is opaque, so the embedding
keeps its arguments verbatim. -/
def rasterize (frame : String) (w h qualityPct : Nat) : String :=
  "jpeg(" ++ toString w ++ "x" ++ toString h ++ ",q" ++ toString qualityPct
    ++ "):" ++ frame

/-- Environment of one processAIResponse call: whether a 2d canvas context
is available, and the generative-model call outcomes. -/
structure AIEnv where
  ctxAvailable : Bool
  visionCall : Except String String
  textCall : Except String String
deriving Repr

/-- Observable outcome of processAIResponse of useAIResponse.ts:
the inlineData pair (data, mimeType) submitted to the vision model if one
was submitted, which model was invoked, the returned text or the
propagated rejection message, and the final isLoading value.  The
best-effort speech playback of a successful result is fire-and-forget and
is not modelled. -/
structure AIRun where
  submittedImage : Option (String × String)
  promptSent : Option String
  visionInvoked : Bool
  textInvoked : Bool
  result : Except String String
  isLoading : Bool
deriving DecidableEq, Repr

/-- Message of the Error rethrown by the inner catch of the image branch
of processAIResponse. -/
def visionFailMsg : String := "Failed to analyze image"

/-- processAIResponse of useAIResponse.ts.  With no image the text model
is called.  With an image, the inner try builds the inlineData payload:
an inlineData object is used as-is; a video element is drawn on a 640x480
canvas and encoded as image/jpeg at quality 0.8 (80 percent); any other
input leaves imageData undefined and throws.  Any failure in the inner
try, including a vision-model rejection, is rethrown as visionFailMsg.
The outer catch rethrows, so a failure propagates to the caller as an
Except.error; the finally clears isLoading. -/
def processAIResponse (env : AIEnv) (prompt : String)
    (imageInput : Option ImageInput) : AIRun :=
  match imageInput with
  | none =>
    match env.textCall with
    | .error e => ⟨none, some prompt, false, true, .error e, false⟩
    | .ok t => ⟨none, some prompt, false, true, .ok t, false⟩
  | some input =>
    let visionPrompt := if prompt = "" then "What's in this image?" else prompt
    match (match input with
           | .inline d m => Except.ok (d, m)
           | .video f =>
             if env.ctxAvailable then
               Except.ok (rasterize f 640 480 80, "image/jpeg")
             else Except.error "Canvas context not available"
           | .imageEl _ => Except.error "Invalid image input") with
    | .error _ => ⟨none, none, false, false, .error visionFailMsg, false⟩
    | .ok payload =>
      match env.visionCall with
      | .error _ =>
        ⟨some payload, some visionPrompt, true, false, .error visionFailMsg, false⟩
      | .ok t => ⟨some payload, some visionPrompt, true, false, .ok t, false⟩

/-- JavaScript s.split(sep)[1]; the undefined of a missing second piece is
collapsed to the empty string, which no property here depends on. -/
def jsSplitSecond (s : String) : String :=
  ((s.splitOn ",").get? 1).getD ""

/-- handleWhiteboardSubmit of App.tsx: submits the canvas export as an
inline image/png payload (the base64 part after the data-url comma) with a
fixed prompt, and on a result with nonempty text shows it and appends only
an answer record; a rejection is caught and written to the App error. -/
def handleWhiteboardSubmit (imageData : String) (env : AIEnv)
    (h0 : List InteractionRecord) (r0 : String) (e0 : Option String) :
    UploadRun :=
  let run := processAIResponse env
    "Analyze this drawing and provide feedback and explanations"
    (some (.inline (jsSplitSecond imageData) "image/png"))
  match run.result with
  | .error _ => ⟨true, h0, r0, some whiteboardFailMsg⟩
  | .ok t =>
    if t = "" then ⟨true, h0, r0, e0⟩
    else ⟨true, addToHistory h0 .answer t, t, e0⟩

/-! Chat request/response cycles for the history-shape property. -/

/-- One chat-mode request cycle of App.tsx: a voice question or a
camera-frame analysis, together with the Response Generator outcome
awaited during that cycle. -/
inductive CycleKind where
  | ask (transcript : String)
  | analyzeVisual (videoAvailable : Bool) (transcript : String)
deriving DecidableEq, Repr

/-- A cycle and its Response Generator outcome. -/
structure CycleInput where
  kind : CycleKind
  ai : Except String String
deriving DecidableEq, Repr

/-- The history after running one cycle from history h. -/
def runCycle (h : List InteractionRecord) (c : CycleInput) :
    List InteractionRecord :=
  match c.kind with
  | .ask t => (handleAskQuestion t c.ai h "").history
  | .analyzeVisual v t => (handleAnalyzeImage v t c.ai h "").history

/-- The history after running a sequence of cycles from history h. -/
def runCycles (h : List InteractionRecord) :
    List CycleInput → List InteractionRecord
  | [] => h
  | c :: cs => runCycles (runCycle h c) cs

/-- A successful cycle: its guard passes (nonempty transcript for ask,
available video for analyzeVisual) and the Response Generator resolves
with nonempty text. -/
def successfulCycle (c : CycleInput) : Bool :=
  (match c.ai with
   | .ok t => t ≠ ""
   | .error _ => false) &&
  (match c.kind with
   | .ask t => t ≠ ""
   | .analyzeVisual v _ => v)

/-- The question text a cycle appends. -/
def cycleQuestion (c : CycleInput) : String :=
  match c.kind with
  | .ask t => t
  | .analyzeVisual _ t => if t = "" then defaultVisionQuestion else t

/-- The answer text a successful cycle appends. -/
def cycleAnswer (c : CycleInput) : String :=
  match c.ai with
  | .ok t => t
  | .error _ => ""

/-- The question-then-answer record pairs of a cycle sequence, in call
order. -/
def expectedPairs : List CycleInput → List InteractionRecord
  | [] => []
  | c :: cs =>
    ⟨.question, cycleQuestion c⟩ :: ⟨.answer, cycleAnswer c⟩ :: expectedPairs cs

/-! QuizSection component state machine (quiz run). -/

/-- JSON values as produced by JSON.parse.  Numbers are kept as integers:
no property here involves fractional literals, and the parser rejects
them, which no quantified statement below depends on. -/
inductive Json where
  | jnull
  | jbool (b : Bool)
  | jnum (n : Int)
  | jstr (s : String)
  | jarr (elems : List Json)
  | jobj (fields : List (String × Json))
deriving Repr

/-- JSON whitespace. -/
def isWsChar (c : Char) : Bool :=
  c = ' ' || c = '\n' || c = '\t' || c = '\r'

/-- Drops leading JSON whitespace. -/
def skipWs : List Char → List Char
  | [] => []
  | c :: cs => if isWsChar c then skipWs cs else c :: cs

/-- Decimal digit test. -/
def isJDigit (c : Char) : Bool :=
  '0' ≤ c && c ≤ '9'

/-- Splits a leading run of digits from the rest. -/
def takeDigits : List Char → List Char × List Char
  | [] => ([], [])
  | c :: cs =>
    if isJDigit c then
      let p := takeDigits cs
      (c :: p.1, p.2)
    else ([], c :: cs)

/-- Value of a digit run. -/
def digitsToNat (ds : List Char) : Nat :=
  ds.foldl (fun n c => 10 * n + (c.toNat - '0'.toNat)) 0

/-- Parses the remainder of a JSON string literal after the opening quote,
accumulating characters in reverse; the common escapes are handled and
other escapes are rejected (none appears in any concrete input used
below). -/
def parseStrBody (fuel : Nat) (acc : List Char) (cs : List Char) :
    Option (String × List Char) :=
  match fuel with
  | 0 => none
  | fuel + 1 =>
    match cs with
    | [] => none
    | c :: rest =>
      if c = '"' then some (String.mk acc.reverse, rest)
      else if c = '\\' then
        match rest with
        | [] => none
        | e :: rest2 =>
          if e = '"' then parseStrBody fuel ('"' :: acc) rest2
          else if e = '\\' then parseStrBody fuel ('\\' :: acc) rest2
          else if e = '/' then parseStrBody fuel ('/' :: acc) rest2
          else if e = 'n' then parseStrBody fuel ('\n' :: acc) rest2
          else if e = 't' then parseStrBody fuel ('\t' :: acc) rest2
          else if e = 'r' then parseStrBody fuel ('\r' :: acc) rest2
          else none
      else parseStrBody fuel (c :: acc) rest

mutual

/-- Parses one JSON value; fuel bounds the recursion and exceeds any need
at the lengths used (every recursive call consumes input). -/
def parseVal (fuel : Nat) (cs : List Char) : Option (Json × List Char) :=
  match fuel with
  | 0 => none
  | fuel + 1 =>
    match skipWs cs with
    | [] => none
    | 'n' :: 'u' :: 'l' :: 'l' :: rest => some (.jnull, rest)
    | 't' :: 'r' :: 'u' :: 'e' :: rest => some (.jbool true, rest)
    | 'f' :: 'a' :: 'l' :: 's' :: 'e' :: rest => some (.jbool false, rest)
    | '"' :: rest => (parseStrBody fuel [] rest).map (fun p => (.jstr p.1, p.2))
    | '[' :: rest => (parseArrElems fuel rest true).map (fun p => (.jarr p.1, p.2))
    | '{' :: rest => (parseObjFields fuel rest true).map (fun p => (.jobj p.1, p.2))
    | '-' :: rest =>
      match takeDigits rest with
      | ([], _) => none
      | (ds, rest2) => some (.jnum (-(digitsToNat ds : Int)), rest2)
    | c :: rest =>
      if isJDigit c then
        some (.jnum (digitsToNat (takeDigits (c :: rest)).1),
          (takeDigits (c :: rest)).2)
      else none

/-- Parses array elements up to the closing bracket; first marks the
position before any element, where no separating comma is consumed. -/
def parseArrElems (fuel : Nat) (cs : List Char) (first : Bool) :
    Option (List Json × List Char) :=
  match fuel with
  | 0 => none
  | fuel + 1 =>
    match skipWs cs with
    | ']' :: rest => some ([], rest)
    | cs2 => do
      let cs3 ←
        if first then some cs2
        else match cs2 with
          | ',' :: r => some r
          | _ => none
      let p ← parseVal fuel cs3
      let q ← parseArrElems fuel p.2 false
      some (p.1 :: q.1, q.2)

/-- Parses object fields up to the closing brace. -/
def parseObjFields (fuel : Nat) (cs : List Char) (first : Bool) :
    Option (List (String × Json) × List Char) :=
  match fuel with
  | 0 => none
  | fuel + 1 =>
    match skipWs cs with
    | '}' :: rest => some ([], rest)
    | cs2 => do
      let cs3 ←
        if first then some cs2
        else match cs2 with
          | ',' :: r => some r
          | _ => none
      match skipWs cs3 with
      | '"' :: rest => do
        let k ← parseStrBody fuel [] rest
        match skipWs k.2 with
        | ':' :: rest3 => do
          let v ← parseVal fuel rest3
          let fs ← parseObjFields fuel v.2 false
          some ((k.1, v.1) :: fs.1, fs.2)
        | _ => none
      | _ => none

end

/-- C4: with an empty transcript, handleAskQuestion does not invoke the
Response Generator, shows the voice placeholder in the response display,
and leaves the history unchanged; the guard returns before the try block,
so no exception can arise. -/
theorem ask_empty_transcript_placeholder (t : String)
    (ai : Except String String) (h0 : List InteractionRecord) (r0 : String)
    (ht : t = "") :
    (handleAskQuestion t ai h0 r0).aiInvoked = false
    ∧ (handleAskQuestion t ai h0 r0).response = voicePlaceholderMsg
    ∧ (handleAskQuestion t ai h0 r0).history = h0 := by
  subst ht
  simp [handleAskQuestion]

/-- C4 witness: the empty transcript. -/
theorem ask_empty_transcript_placeholder_witness :
    (handleAskQuestion "" (.ok "some answer") [] "r0").aiInvoked = false
    ∧ (handleAskQuestion "" (.ok "some answer") [] "r0").response
        = voicePlaceholderMsg
    ∧ (handleAskQuestion "" (.ok "some answer") [] "r0").history = [] :=
  ask_empty_transcript_placeholder "" (.ok "some answer") [] "r0" rfl

/-- Every cycle only appends: the outgoing history extends the incoming
one by the records of a run from the empty history. -/
theorem runCycle_shift (h : List InteractionRecord) (c : CycleInput) :
    runCycle h c = h ++ runCycle [] c := by
  obtain ⟨k, ai⟩ := c
  cases k with
  | ask t =>
    cases ai with
    | error e =>
      by_cases ht : t = "" <;>
        simp [runCycle, handleAskQuestion, ht, addToHistory]
    | ok u =>
      by_cases ht : t = "" <;> by_cases hu : u = "" <;>
        simp [runCycle, handleAskQuestion, ht, hu, addToHistory]
  | analyzeVisual v t =>
    cases ai with
    | error e =>
      cases v <;> by_cases ht : t = "" <;>
        simp [runCycle, handleAnalyzeImage, ht, addToHistory]
    | ok u =>
      cases v <;> by_cases ht : t = "" <;> by_cases hu : u = "" <;>
        simp [runCycle, handleAnalyzeImage, ht, hu, addToHistory]

/-- A successful cycle appends exactly its question-answer pair. -/
theorem runCycle_success (h : List InteractionRecord) (c : CycleInput)
    (hs : successfulCycle c = true) :
    runCycle h c =
      h ++ [⟨.question, cycleQuestion c⟩, ⟨.answer, cycleAnswer c⟩] := by
  obtain ⟨k, ai⟩ := c
  cases k with
  | ask t =>
    cases ai with
    | error e => simp [successfulCycle] at hs
    | ok u =>
      simp only [successfulCycle, Bool.and_eq_true, decide_eq_true_eq] at hs
      obtain ⟨hu, ht⟩ := hs
      simp [runCycle, handleAskQuestion, ht, hu, cycleQuestion, cycleAnswer,
        addToHistory]
  | analyzeVisual v t =>
    cases ai with
    | error e => simp [successfulCycle] at hs
    | ok u =>
      simp only [successfulCycle, Bool.and_eq_true, decide_eq_true_eq] at hs
      obtain ⟨hu, hv⟩ := hs
      subst hv
      simp [runCycle, handleAnalyzeImage, hu, cycleQuestion, cycleAnswer,
        addToHistory]

/-- Running all-successful cycles appends the expected pairs. -/
theorem runCycles_append (cs : List CycleInput) :
    ∀ h, (∀ c ∈ cs, successfulCycle c = true) →
      runCycles h cs = h ++ expectedPairs cs := by
  induction cs with
  | nil =>
    intro h _
    simp [runCycles, expectedPairs]
  | cons c cs ih =>
    intro h hall
    have hc : successfulCycle c = true := hall c (by simp)
    have hrest : ∀ x ∈ cs, successfulCycle x = true :=
      fun x hx => hall x (by simp [hx])
    show runCycles (runCycle h c) cs = _
    rw [runCycle_success h c hc, ih _ hrest]
    simp [expectedPairs]

/-- Each cycle contributes two records to the expected history. -/
theorem expectedPairs_length (cs : List CycleInput) :
    (expectedPairs cs).length = 2 * cs.length := by
  induction cs with
  | nil => simp [expectedPairs]
  | cons c cs ih =>
    simp [expectedPairs, ih]
    omega

/-- C5: the history is append-only — every ask or analyzeVisual cycle
only appends records (never mutates or reorders existing ones), and only
the explicit reset empties it — and N successful cycles from the empty
history yield exactly the 2N records of the question-then-answer pairs in
call order. -/
theorem history_append_only_pairs (cs : List CycleInput) :
    (∀ h c, ∃ tail, runCycle h c = h ++ tail)
    ∧ clearHistory = []
    ∧ ((∀ c ∈ cs, successfulCycle c = true) →
        runCycles [] cs = expectedPairs cs
        ∧ (runCycles [] cs).length = 2 * cs.length) := by
  refine ⟨fun h c => ⟨runCycle [] c, runCycle_shift h c⟩, rfl, fun hall => ?_⟩
  have he : runCycles [] cs = expectedPairs cs := by
    simpa using runCycles_append cs [] hall
  exact ⟨he, by rw [he]; exact expectedPairs_length cs⟩

/-- C5 witness: two successful cycles, one ask and one camera analysis,
produce the four records of the two pairs. -/
theorem history_append_only_pairs_witness :
    runCycles [] [⟨.ask "Q1", .ok "A1"⟩, ⟨.analyzeVisual true "", .ok "A2"⟩]
      = expectedPairs [⟨.ask "Q1", .ok "A1"⟩, ⟨.analyzeVisual true "", .ok "A2"⟩]
    ∧ (runCycles [] [⟨.ask "Q1", .ok "A1"⟩, ⟨.analyzeVisual true "", .ok "A2"⟩]).length
      = 2 * 2 :=
  (history_append_only_pairs
    [⟨.ask "Q1", .ok "A1"⟩, ⟨.analyzeVisual true "", .ok "A2"⟩]).2.2 (by decide)

/-- C7: with a 2d context available, a live video source is rasterized on
a 640-by-480 canvas and encoded as image/jpeg at quality 0.8 before
submission to the vision model, while a pre-encoded inline payload is
submitted as-is, whatever the model call outcome. -/
theorem processAIResponse_image_submission (env : AIEnv)
    (prompt f d m : String) (hctx : env.ctxAvailable = true) :
    (processAIResponse env prompt (some (.video f))).submittedImage
        = some (rasterize f 640 480 80, "image/jpeg")
    ∧ (processAIResponse env prompt (some (.inline d m))).submittedImage
        = some (d, m) := by
  cases hvc : env.visionCall <;>
    simp [processAIResponse, hctx, hvc]

/-- C7 witness at a concrete environment and inputs. -/
theorem processAIResponse_image_submission_witness :
    (processAIResponse ⟨true, .ok "seen", .ok "t"⟩ "p"
        (some (.video "frame"))).submittedImage
      = some (rasterize "frame" 640 480 80, "image/jpeg")
    ∧ (processAIResponse ⟨true, .ok "seen", .ok "t"⟩ "p"
        (some (.inline "data64" "image/png"))).submittedImage
      = some ("data64", "image/png") :=
  processAIResponse_image_submission ⟨true, .ok "seen", .ok "t"⟩ "p" "frame"
    "data64" "image/png" rfl

/-- C9: a whiteboard analysis cycle appends exactly one answer record and
no question record on success (so it grows the history by one, unlike the
question-answer pairs of ask and analyzeVisual), and appends nothing on
failure. -/
theorem whiteboard_single_answer (imageData : String) (env : AIEnv)
    (h0 : List InteractionRecord) (r0 : String) (e0 : Option String) :
    (∀ t, env.visionCall = .ok t → t ≠ "" →
        (handleWhiteboardSubmit imageData env h0 r0 e0).history
          = h0 ++ [⟨.answer, t⟩])
    ∧ (∀ e, env.visionCall = .error e →
        (handleWhiteboardSubmit imageData env h0 r0 e0).history = h0) := by
  constructor
  · intro t hv ht
    simp [handleWhiteboardSubmit, processAIResponse, hv, ht, addToHistory]
  · intro e hv
    simp [handleWhiteboardSubmit, processAIResponse, hv]

/-- C9 witness: a successful whiteboard analysis grows the history by one
answer record. -/
theorem whiteboard_single_answer_witness :
    (handleWhiteboardSubmit "data:image/png;base64,AAAA"
        ⟨true, .ok "Nice drawing", .ok "t"⟩ [⟨.question, "earlier"⟩] "" none).history
      = [⟨.question, "earlier"⟩] ++ [⟨.answer, "Nice drawing"⟩] :=
  (whiteboard_single_answer "data:image/png;base64,AAAA"
      ⟨true, .ok "Nice drawing", .ok "t"⟩ [⟨.question, "earlier"⟩] "" none).1
    "Nice drawing" rfl (by decide)

end AiTeacher

